import Mathlib

/-!
Verification of `src/data_processor.py` (GasolineraESP).

The file embeds the program shallowly:

* Strings stay Lean `String`s; Python `str.strip()` and `str.replace(',', '.')`
  become `pyStrip` and `pyReplaceComma` on the underlying character lists.
* Python `float(s)` on finite decimal numerals becomes `pyFloat`, returning the
  exact value as a rational (`Option ℚ`; `none` where `float` raises
  `ValueError`).  The model covers the decimal grammar the fuel-price feed
  uses: optional surrounding whitespace, an optional sign, digits with an
  optional decimal point, and an optional exponent part.
* A station record (a JSON object of string fields) is an association list
  `List (String × String)`; `dict.get` becomes association-list lookup.
* The retry loop of `process_data` runs against an oracle
  `Nat → AttemptOutcome` giving the outcome of each HTTP attempt; the loop
  produces a `FetchTrace` recording how many attempts were made, the sleep
  durations, and the parsed payload if any.  `requests.Response.json` raises
  `JSONDecodeError` — a `requests.RequestException` subclass — when the body
  is not JSON, so a body-parse failure is caught by the same `except` clause
  as a network failure; the oracle keeps the two outcomes distinct so that
  their equal treatment can be stated and proved.
-/

namespace GasolineraESP

/-- Numeric value of a list of decimal digit characters, most significant
first. -/
def digitsVal (ds : List Char) : Nat :=
  ds.foldl (fun a c => 10 * a + (c.toNat - 48)) 0

/-- Leading- and trailing-whitespace trimming on character lists: the model of
Python `str.strip()` and of the whitespace tolerance of `float`. -/
def trimChars (l : List Char) : List Char :=
  (l.dropWhile Char.isWhitespace).rdropWhile Char.isWhitespace

/-- Python `s.strip()`. -/
def pyStrip (s : String) : String := ⟨trimChars s.data⟩

/-- Python `s.replace(',', '.')`: the pattern is a single character, so the
replacement is a character map. -/
def commaToPoint (l : List Char) : List Char :=
  l.map (fun c => if c = ',' then '.' else c)

/-- Python `s.replace(',', '.')` on strings. -/
def pyReplaceComma (s : String) : String := ⟨commaToPoint s.data⟩

/-- Core of the `float` model: parse a character list (already trimmed) as an
optionally signed decimal numeral with optional fraction and exponent,
returning the exact rational value, or `none` where Python `float` raises
`ValueError`. -/
def parseFloatChars (cs : List Char) : Option ℚ :=
  let sgncs : ℚ × List Char :=
    match cs with
    | '+' :: r => (1, r)
    | '-' :: r => (-1, r)
    | _ => (1, cs)
  let intSplit := sgncs.2.span Char.isDigit
  let fracSplit : List Char × List Char :=
    match intSplit.2 with
    | '.' :: r => r.span Char.isDigit
    | _ => ([], intSplit.2)
  if intSplit.1.isEmpty && fracSplit.1.isEmpty then none
  else
    let mant : ℚ :=
      sgncs.1 * ((digitsVal intSplit.1 : ℚ) +
        (digitsVal fracSplit.1 : ℚ) / 10 ^ fracSplit.1.length)
    match fracSplit.2 with
    | [] => some mant
    | 'e' :: r | 'E' :: r =>
      let esgn : Int × List Char :=
        match r with
        | '+' :: r2 => (1, r2)
        | '-' :: r2 => (-1, r2)
        | _ => (1, r)
      let expSplit := esgn.2.span Char.isDigit
      if expSplit.1.isEmpty || !expSplit.2.isEmpty then none
      else some (mant * (10 : ℚ) ^ (esgn.1 * (digitsVal expSplit.1 : Int)))
    | _ => none

/-- Python `float(s)` (on the finite decimal numerals described above):
`float` itself ignores surrounding whitespace. -/
def pyFloat (s : String) : Option ℚ := parseFloatChars (trimChars s.data)

/-- A station record: a JSON object of string fields, as an association
list. -/
abbrev Record := List (String × String)

/-- Python `estacion.get(k)`: `none` when the key is absent. -/
def get? (e : Record) (k : String) : Option String := e.lookup k

/-- Python `estacion.get(k, d)`: the default when the key is absent. -/
def getD (e : Record) (k d : String) : String := (e.lookup k).getD d

/-- Function `clean_price` from `data_processor.py`: `None` for an absent, empty or
whitespace-only string, else `float` of the string with the decimal comma
replaced by a point (`None` on `ValueError`). -/
def clean_price (price_str : Option String) : Option ℚ :=
  match price_str with
  | none => none
  | some s =>
    if s = "" ∨ pyStrip s = "" then none
    else pyFloat (pyReplaceComma s)

/-- Function `clean_coord` from `data_processor.py`: `None` for an absent or empty
string, else `float` of the stripped string with the decimal comma replaced
by a point (`None` on `ValueError`). -/
def clean_coord (coord_str : Option String) : Option ℚ :=
  match coord_str with
  | none => none
  | some s =>
    if s = "" then none
    else pyFloat (pyStrip (pyReplaceComma s))

/-- Constant `PRECIOS_MAP` from `data_processor.py`, as the ordered list of
(source key, renamed key) pairs in which the dict is written and iterated. -/
def PRECIOS_MAP : List (String × String) :=
  [("Precio Gasolina 95 E5", "Precio_95E5"),
   ("Precio Gasolina 98 E5", "Precio_98E5"),
   ("Precio Gasoleo A", "Precio_GasoilA"),
   ("Precio Gasoleo B", "Precio_GasoilB"),
   ("Precio Gasoleo Premium", "Precio_GasoilPremium"),
   ("Precio Gasolina 95 E10", "Precio_95E10"),
   ("Precio Gasolina 98 E10", "Precio_98E10")]

/-- A JSON value stored in a feature's `properties` object: a string, a
number, or `null`. -/
inductive PropVal where
  | str (s : String)
  | num (q : ℚ)
  | null
deriving DecidableEq

/-- How a cleaned price is stored in `properties[new_key]`: the parsed number,
or `null` when `clean_price` returned `None`. -/
def priceVal : Option ℚ → PropVal
  | some q => .num q
  | none => .null

/-- The `geometry` object of an emitted feature. -/
structure Geometry where
  coordinates : List ℚ
  type : String
deriving DecidableEq

/-- An emitted GeoJSON feature. -/
structure Feature where
  type : String
  geometry : Geometry
  properties : List (String × PropVal)
deriving DecidableEq

/-- The output document. -/
structure FeatureCollection where
  type : String
  features : List Feature
deriving DecidableEq

/-- The `properties` dict built for one station, in insertion order:
`Rotulo` and `Direccion` with their defaults, then the seven renamed price
keys in `PRECIOS_MAP` order, each present whether or not the price parsed. -/
def stationProperties (estacion : Record) : List (String × PropVal) :=
  [("Rotulo", .str (getD estacion "Rótulo" "S/N")),
   ("Direccion", .str (getD estacion "Dirección" ""))]
  ++ PRECIOS_MAP.map fun p => (p.2, priceVal (clean_price (get? estacion p.1)))

/-- Flag `has_valid_price` as computed by the price loop: some price in
`PRECIOS_MAP` cleaned to a number. -/
def hasValidPrice (estacion : Record) : Bool :=
  PRECIOS_MAP.any fun p => (clean_price (get? estacion p.1)).isSome

/-- The body of the `for estacion in estaciones` loop: the feature appended
for this record, or `none` when the record is skipped (invalid coordinate via
`continue`, or no valid price). -/
def processStation (estacion : Record) : Option Feature :=
  match clean_coord (get? estacion "Latitud"),
        clean_coord (get? estacion "Longitud (WGS84)") with
  | some lat, some lon =>
    if hasValidPrice estacion then
      some { type := "Feature"
             geometry := { coordinates := [lon, lat], type := "Point" }
             properties := stationProperties estacion }
    else none
  | _, _ => none

/-- The whole station loop: `features` accumulated in input order. -/
def buildFeatures : List Record → List Feature
  | [] => []
  | estacion :: rest =>
    match processStation estacion with
    | some f => f :: buildFeatures rest
    | none => buildFeatures rest

/-- The fetched raw document, as an association list from top-level keys to
station lists (only the station-list shape matters to the program). -/
abbrev RawDoc := List (String × List Record)

/-- Python `data.get("ListaEESSPrecio", [])`. -/
def stationList (data : RawDoc) : List Record :=
  (data.lookup "ListaEESSPrecio").getD []

/-- The transformation step of `process_data`: the GeoJSON document written to
the output file. -/
def transform (data : RawDoc) : FeatureCollection :=
  { type := "FeatureCollection", features := buildFeatures (stationList data) }

/-! ### The fetch/retry loop -/

/-- Constant `MAX_RETRIES` from `data_processor.py`. -/
def MAX_RETRIES : Nat := 5

/-- Constant `RETRY_DELAY_SECONDS` from `data_processor.py`. -/
def RETRY_DELAY_SECONDS : Nat := 10

/-- Outcome of one HTTP attempt: a parsed JSON payload; a network-level
failure (connection error, timeout or non-success status raised by
`raise_for_status`); or a body that is not valid JSON (`response.json()`
raises `JSONDecodeError`, a `RequestException` subclass). -/
inductive AttemptOutcome where
  | ok (doc : RawDoc)
  | netFail
  | badJson
deriving DecidableEq

/-- Whether the attempt's outcome is caught by the
`except requests.exceptions.RequestException` clause. -/
def AttemptOutcome.isFail : AttemptOutcome → Bool
  | .ok _ => false
  | .netFail => true
  | .badJson => true

/-- What the retry loop did: how many attempts ran, the durations of the
`time.sleep` calls in order, and the payload `data` at loop exit (if any). -/
structure FetchTrace where
  attemptsMade : Nat
  sleeps : List Nat
  result : Option RawDoc
deriving DecidableEq

/-- Loop `for attempt in range(MAX_RETRIES)` from position `attempt` with
`fuel = MAX_RETRIES - attempt` iterations left: on success, `break` (no sleep,
no further attempt); on a caught failure, sleep `RETRY_DELAY_SECONDS` when
`attempt < MAX_RETRIES - 1` and continue. -/
def fetchLoop (oracle : Nat → AttemptOutcome) : Nat → Nat → FetchTrace
  | 0, _ => ⟨0, [], none⟩
  | fuel + 1, attempt =>
    match oracle attempt with
    | .ok doc => ⟨1, [], some doc⟩
    | .netFail | .badJson =>
      let rest := fetchLoop oracle fuel (attempt + 1)
      ⟨rest.attemptsMade + 1,
       (if attempt < MAX_RETRIES - 1 then [RETRY_DELAY_SECONDS] else []) ++ rest.sleeps,
       rest.result⟩

/-- The whole retry loop of `process_data`. -/
def fetch (oracle : Nat → AttemptOutcome) : FetchTrace :=
  fetchLoop oracle MAX_RETRIES 0

/-- Function `process_data` end to end: `none` models the early `return` with no output
file written; `some g` models writing `g` to `gasolineras.geojson`. -/
def process_data (oracle : Nat → AttemptOutcome) : Option FeatureCollection :=
  match (fetch oracle).result with
  | none => none
  | some data => some (transform data)

/-! ### Facts about trimming and the normalizer -/

lemma trimChars_idem (l : List Char) : trimChars (trimChars l) = trimChars l := by
  unfold trimChars
  have h1 : List.dropWhile Char.isWhitespace
      ((List.dropWhile Char.isWhitespace l).rdropWhile Char.isWhitespace) =
      (List.dropWhile Char.isWhitespace l).rdropWhile Char.isWhitespace := by
    rw [List.dropWhile_eq_self_iff]
    intro hl
    obtain ⟨t, ht⟩ :=
      List.rdropWhile_prefix Char.isWhitespace (List.dropWhile Char.isWhitespace l)
    have hlen : 0 < (List.dropWhile Char.isWhitespace l).length := by
      have := congrArg List.length ht
      simp only [List.length_append] at this
      omega
    have hget := List.dropWhile_get_zero_not Char.isWhitespace l hlen
    have hlen2 : 0 <
        ((List.dropWhile Char.isWhitespace l).rdropWhile Char.isWhitespace ++ t).length := by
      rw [ht]; exact hlen
    have h2 :
        ((List.dropWhile Char.isWhitespace l).rdropWhile Char.isWhitespace ++ t).get
          ⟨0, hlen2⟩ =
        ((List.dropWhile Char.isWhitespace l).rdropWhile Char.isWhitespace).get ⟨0, hl⟩ :=
      List.get_append 0 hl
    have h3 := List.get_of_eq ht ⟨0, hlen2⟩
    exact (h2.symm.trans h3).symm ▸ hget
  rw [h1, List.rdropWhile_idempotent]

lemma pyFloat_pyStrip (s : String) : pyFloat (pyStrip s) = pyFloat s := by
  unfold pyFloat pyStrip
  rw [show (String.mk (trimChars s.data)).data = trimChars s.data from rfl,
    trimChars_idem]

lemma trimChars_eq_nil_iff (l : List Char) :
    trimChars l = [] ↔ ∀ c ∈ l, Char.isWhitespace c = true := by
  unfold trimChars
  rw [List.rdropWhile_eq_nil_iff]
  constructor
  · intro h c hc
    have hd : List.dropWhile Char.isWhitespace l = [] := by
      cases he : List.dropWhile Char.isWhitespace l with
      | nil => rfl
      | cons a t =>
        have ha : Char.isWhitespace a = true :=
          h a (by rw [he]; exact List.mem_cons_self a t)
        have hidem := List.dropWhile_idempotent Char.isWhitespace l
        rw [he, List.dropWhile_cons, if_pos ha] at hidem
        have hle := (List.dropWhile_suffix (l := t) Char.isWhitespace).length_le
        rw [hidem] at hle
        simp only [List.length_cons] at hle
        omega
    rw [List.dropWhile_eq_nil_iff] at hd
    exact hd c hc
  · intro h x hx
    exact h x ((List.dropWhile_suffix Char.isWhitespace).subset hx)

lemma pyStrip_eq_empty_iff (s : String) :
    pyStrip s = "" ↔ ∀ c ∈ s.data, Char.isWhitespace c = true := by
  rw [String.ext_iff]
  exact trimChars_eq_nil_iff s.data

lemma commaToPoint_of_whitespace {l : List Char}
    (h : ∀ c ∈ l, Char.isWhitespace c = true) : commaToPoint l = l := by
  unfold commaToPoint
  have h2 : ∀ c ∈ l, (if c = ',' then '.' else c) = id c := by
    intro c hc
    have hw := h c hc
    by_cases h3 : c = ','
    · subst h3
      exact absurd hw (by decide)
    · simp [h3]
  rw [List.map_congr_left h2, List.map_id]

lemma parseFloatChars_nil : parseFloatChars [] = none := rfl

lemma pyFloat_of_whitespace {s : String}
    (h : pyStrip s = "") : pyFloat s = none := by
  unfold pyFloat
  rw [String.ext_iff] at h
  have h2 : trimChars s.data = [] := h
  rw [h2]
  exact parseFloatChars_nil

/-- The decimal-comma normalizer exactly as the spec words it: an absent,
empty or whitespace-only field is invalid (`none`); otherwise the decimal
comma is replaced by a decimal point and the string is parsed as a
floating-point number, a parse failure giving `none`. -/
def specDecimalCommaNormalizer (s : Option String) : Option ℚ :=
  match s with
  | none => none
  | some s => if pyStrip s = "" then none else pyFloat (pyReplaceComma s)

/-- C2: `clean_price` and `clean_coord` never raise and both implement the
spec's decimal-comma normalizer: `none` on an absent, empty, whitespace-only
or unparsable input, and on any other input the value of the string with the
decimal comma replaced by a decimal point, parsed as a decimal numeral
(`pyFloat ∘ pyReplaceComma`). -/
theorem C2_decimal_comma_normalizer (s : Option String) :
    clean_price s = specDecimalCommaNormalizer s ∧
    clean_coord s = specDecimalCommaNormalizer s := by
  cases s with
  | none => exact ⟨rfl, rfl⟩
  | some s =>
    constructor
    · show (if s = "" ∨ pyStrip s = "" then none else pyFloat (pyReplaceComma s)) =
        (if pyStrip s = "" then none else pyFloat (pyReplaceComma s))
      by_cases hw : pyStrip s = ""
      · rw [if_pos hw, if_pos (Or.inr hw)]
      · have hs : ¬s = "" := by
          intro he
          exact hw (by rw [he]; rfl)
        rw [if_neg hw, if_neg (by tauto)]
    · show (if s = "" then none else pyFloat (pyStrip (pyReplaceComma s))) =
        (if pyStrip s = "" then none else pyFloat (pyReplaceComma s))
      by_cases hs : s = ""
      · subst hs
        rw [if_pos rfl, if_pos (show pyStrip "" = "" from rfl)]
      · rw [if_neg hs, pyFloat_pyStrip]
        by_cases hw : pyStrip s = ""
        · rw [if_pos hw]
          have hwl : ∀ c ∈ s.data, Char.isWhitespace c = true :=
            (pyStrip_eq_empty_iff s).mp hw
          have hrepl : pyReplaceComma s = s := by
            rw [String.ext_iff]
            exact commaToPoint_of_whitespace hwl
          rw [hrepl]
          exact pyFloat_of_whitespace hw
        · rw [if_neg hw]

/-! ### The transformer -/

lemma hasValidPrice_iff (e : Record) :
    hasValidPrice e = true ↔
      ∃ p ∈ PRECIOS_MAP, (clean_price (get? e p.1)).isSome = true := by
  unfold hasValidPrice
  exact List.any_eq_true

lemma processStation_isSome_iff (e : Record) :
    (processStation e).isSome = true ↔
      ((clean_coord (get? e "Latitud")).isSome = true ∧
       (clean_coord (get? e "Longitud (WGS84)")).isSome = true ∧
       hasValidPrice e = true) := by
  unfold processStation
  cases hlat : clean_coord (get? e "Latitud") with
  | none => simp
  | some lat =>
    cases hlon : clean_coord (get? e "Longitud (WGS84)") with
    | none => simp
    | some lon =>
      by_cases hp : hasValidPrice e
      · simp [hp]
      · simp [hp]

lemma processStation_eq {e : Record} {lat lon : ℚ}
    (hlat : clean_coord (get? e "Latitud") = some lat)
    (hlon : clean_coord (get? e "Longitud (WGS84)") = some lon)
    (hp : hasValidPrice e = true) :
    processStation e =
      some ⟨"Feature", ⟨[lon, lat], "Point"⟩, stationProperties e⟩ := by
  unfold processStation
  rw [hlat, hlon]
  show (if hasValidPrice e = true then
      some (⟨"Feature", ⟨[lon, lat], "Point"⟩, stationProperties e⟩ : Feature)
    else none) = _
  rw [if_pos hp]

lemma processStation_inv {e : Record} {f : Feature}
    (hf : processStation e = some f) :
    ∃ lat lon, clean_coord (get? e "Latitud") = some lat ∧
      clean_coord (get? e "Longitud (WGS84)") = some lon ∧
      hasValidPrice e = true ∧
      f = ⟨"Feature", ⟨[lon, lat], "Point"⟩, stationProperties e⟩ := by
  have hsome : (processStation e).isSome = true := by rw [hf]; rfl
  obtain ⟨h1, h2, hp⟩ := (processStation_isSome_iff e).mp hsome
  obtain ⟨lat, hlat⟩ := Option.isSome_iff_exists.mp h1
  obtain ⟨lon, hlon⟩ := Option.isSome_iff_exists.mp h2
  have heq := processStation_eq hlat hlon hp
  rw [hf] at heq
  exact ⟨lat, lon, hlat, hlon, hp, Option.some.inj heq⟩

/-- C1: a station record yields a Feature if and only if both its latitude
and longitude clean to numbers and at least one of the seven `PRECIOS_MAP`
price fields cleans to a number; otherwise the loop body yields nothing (the
record is dropped with no per-record error — `processStation` is total). -/
theorem C1_emission_iff (estacion : Record) :
    (∃ f, processStation estacion = some f) ↔
      ((∃ lat, clean_coord (get? estacion "Latitud") = some lat) ∧
       (∃ lon, clean_coord (get? estacion "Longitud (WGS84)") = some lon) ∧
       ∃ p ∈ PRECIOS_MAP, ∃ q, clean_price (get? estacion p.1) = some q) := by
  simp only [← Option.isSome_iff_exists]
  rw [processStation_isSome_iff, hasValidPrice_iff]

/-- C5: every emitted Feature's geometry is a Point whose coordinates list is
`[longitude, latitude]` — the cleaned value of the record's
`"Longitud (WGS84)"` field first and of its `"Latitud"` field second,
reversed from the source's natural lat/long field order. -/
theorem C5_point_lon_lat_order (e : Record) (f : Feature)
    (hf : processStation e = some f) :
    f.geometry.type = "Point" ∧
    f.geometry.coordinates =
      [(clean_coord (get? e "Longitud (WGS84)")).getD 0,
       (clean_coord (get? e "Latitud")).getD 0] := by
  obtain ⟨lat, lon, hlat, hlon, hp, hfe⟩ := processStation_inv hf
  subst hfe
  rw [hlat, hlon]
  exact ⟨rfl, rfl⟩

/-- The worked example record of the spec (§8). -/
def exR : Record :=
  [("Latitud", "40,416775"), ("Longitud (WGS84)", "-3,703790"),
   ("Precio Gasolina 95 E5", "1,639"), ("Rótulo", "REPSOL")]

theorem C5_point_lon_lat_order_witness :
    processStation exR = some ((processStation exR).get (by decide)) ∧
    ((processStation exR).get (by decide)).geometry.type = "Point" ∧
    ((processStation exR).get (by decide)).geometry.coordinates =
      [(clean_coord (get? exR "Longitud (WGS84)")).getD 0,
       (clean_coord (get? exR "Latitud")).getD 0] :=
  ⟨(Option.some_get _).symm,
   (C5_point_lon_lat_order exR _ (Option.some_get _).symm).1,
   (C5_point_lon_lat_order exR _ (Option.some_get _).symm).2⟩

/-- C7: every emitted Feature stores under `Rotulo` the record's `Rótulo`
string, defaulting to the sentinel `"S/N"` when the field is absent, and
under `Direccion` the record's `Dirección` string, defaulting to `""`. -/
theorem C7_rotulo_direccion_defaults (e : Record) (f : Feature)
    (hf : processStation e = some f) :
    f.properties.lookup "Rotulo" = some (.str (getD e "Rótulo" "S/N")) ∧
    f.properties.lookup "Direccion" = some (.str (getD e "Dirección" "")) ∧
    (∀ r, get? e "Rótulo" = some r → getD e "Rótulo" "S/N" = r) ∧
    (get? e "Rótulo" = none → getD e "Rótulo" "S/N" = "S/N") ∧
    (∀ a, get? e "Dirección" = some a → getD e "Dirección" "" = a) ∧
    (get? e "Dirección" = none → getD e "Dirección" "" = "") := by
  obtain ⟨lat, lon, hlat, hlon, hp, hfe⟩ := processStation_inv hf
  subst hfe
  refine ⟨rfl, rfl, ?_, ?_, ?_, ?_⟩
  · intro r h
    unfold get? at h
    unfold getD
    rw [h]
    rfl
  · intro h
    unfold get? at h
    unfold getD
    rw [h]
    rfl
  · intro a h
    unfold get? at h
    unfold getD
    rw [h]
    rfl
  · intro h
    unfold get? at h
    unfold getD
    rw [h]
    rfl

theorem C7_rotulo_direccion_defaults_witness :
    processStation exR = some ((processStation exR).get (by decide)) ∧
    ((processStation exR).get (by decide)).properties.lookup "Rotulo" =
      some (.str (getD exR "Rótulo" "S/N")) ∧
    ((processStation exR).get (by decide)).properties.lookup "Direccion" =
      some (.str (getD exR "Dirección" "")) :=
  ⟨(Option.some_get _).symm,
   (C7_rotulo_direccion_defaults exR _ (Option.some_get _).symm).1,
   (C7_rotulo_direccion_defaults exR _ (Option.some_get _).symm).2.1⟩

/-- C8: every emitted Feature's properties bind each of the seven renamed
price keys of `PRECIOS_MAP`, whether or not the raw price parsed: the stored
value is the parsed number when `clean_price` succeeded and `null` when it
returned `None`, never anything else. -/
theorem C8_all_price_keys_stored (e : Record) (f : Feature)
    (hf : processStation e = some f) :
    ∀ p ∈ PRECIOS_MAP,
      f.properties.lookup p.2 = some (priceVal (clean_price (get? e p.1))) ∧
      (priceVal (clean_price (get? e p.1)) = PropVal.null ∨
       ∃ q, priceVal (clean_price (get? e p.1)) = PropVal.num q) := by
  obtain ⟨lat, lon, hlat, hlon, hp, hfe⟩ := processStation_inv hf
  subst hfe
  intro p hp2
  constructor
  · simp only [PRECIOS_MAP, List.mem_cons, List.not_mem_nil, or_false] at hp2
    rcases hp2 with rfl | rfl | rfl | rfl | rfl | rfl | rfl
    · rfl
    · rfl
    · rfl
    · rfl
    · rfl
    · rfl
    · rfl
  · cases hc : clean_price (get? e p.1) with
    | none => exact Or.inl rfl
    | some q => exact Or.inr ⟨q, rfl⟩

theorem C8_all_price_keys_stored_witness :
    processStation exR = some ((processStation exR).get (by decide)) ∧
    ((("Precio Gasolina 95 E5", "Precio_95E5") ∈ PRECIOS_MAP) ∧
     ((processStation exR).get (by decide)).properties.lookup "Precio_95E5" =
       some (priceVal (clean_price (get? exR "Precio Gasolina 95 E5")))) :=
  ⟨(Option.some_get _).symm,
   by decide,
   (C8_all_price_keys_stored exR _ (Option.some_get _).symm
     ("Precio Gasolina 95 E5", "Precio_95E5") (by decide)).1⟩

/-- C9: a fetched document without the `"ListaEESSPrecio"` key is processed
as zero records — not an error — and the run still writes an output
FeatureCollection with an empty features list. -/
theorem C9_missing_list_key (data : RawDoc) (oracle : Nat → AttemptOutcome)
    (hres : (fetch oracle).result = some data)
    (h : data.lookup "ListaEESSPrecio" = none) :
    stationList data = [] ∧
    process_data oracle = some ⟨"FeatureCollection", []⟩ := by
  have h1 : stationList data = [] := by
    unfold stationList
    rw [h]
    rfl
  refine ⟨h1, ?_⟩
  unfold process_data
  rw [hres]
  show some (transform data) = some ⟨"FeatureCollection", []⟩
  unfold transform
  rw [h1]
  rfl

theorem C9_missing_list_key_witness :
    stationList ([] : RawDoc) = [] ∧
    process_data (fun _ => AttemptOutcome.ok []) = some ⟨"FeatureCollection", []⟩ :=
  C9_missing_list_key [] (fun _ => AttemptOutcome.ok []) rfl rfl

lemma buildFeatures_eq_filterMap (l : List Record) :
    buildFeatures l = l.filterMap processStation := by
  induction l with
  | nil => rfl
  | cons e rest ih =>
    unfold buildFeatures
    cases h : processStation e with
    | none => simp [List.filterMap_cons, h, ih]
    | some f => simp [List.filterMap_cons, h, ih]

/-- C10: the emitted features list is exactly the in-order filtered mapping
of the input station list under the per-record loop body, so each Feature
comes from one input record, relative order is preserved, and the output
never has more entries than the input. -/
theorem C10_in_order_filtered_mapping (data : RawDoc) :
    (transform data).features = (stationList data).filterMap processStation ∧
    ((transform data).features).length ≤ (stationList data).length := by
  have h := buildFeatures_eq_filterMap (stationList data)
  constructor
  · exact h
  · rw [show (transform data).features = buildFeatures (stationList data) from rfl, h]
    exact List.length_filterMap_le _ _

/-! ### The retry loop -/

lemma fetchLoop_ok_step {oracle : Nat → AttemptOutcome} {doc : RawDoc}
    {fuel attempt : Nat} (h : oracle attempt = .ok doc) :
    fetchLoop oracle (fuel + 1) attempt = ⟨1, [], some doc⟩ := by
  unfold fetchLoop
  rw [h]

lemma fetchLoop_fail_step {oracle : Nat → AttemptOutcome} {fuel attempt : Nat}
    (h : (oracle attempt).isFail = true) :
    fetchLoop oracle (fuel + 1) attempt =
      ⟨(fetchLoop oracle fuel (attempt + 1)).attemptsMade + 1,
       (if attempt < MAX_RETRIES - 1 then [RETRY_DELAY_SECONDS] else []) ++
         (fetchLoop oracle fuel (attempt + 1)).sleeps,
       (fetchLoop oracle fuel (attempt + 1)).result⟩ := by
  cases ho : oracle attempt with
  | ok d => rw [ho] at h; exact absurd h (by simp [AttemptOutcome.isFail])
  | netFail =>
    conv_lhs => rw [fetchLoop]
    rw [ho]
  | badJson =>
    conv_lhs => rw [fetchLoop]
    rw [ho]

/-- C3: when every attempt fails, the loop runs exactly `MAX_RETRIES = 5`
attempts with a pause after each but the last, ends with no payload, and
`process_data` returns without invoking the transformer or writing output. -/
theorem C3_exhaustion_five_attempts (oracle : Nat → AttemptOutcome)
    (h : ∀ n, (oracle n).isFail = true) :
    (fetch oracle).attemptsMade = MAX_RETRIES ∧
    MAX_RETRIES = 5 ∧
    (fetch oracle).sleeps = List.replicate (MAX_RETRIES - 1) RETRY_DELAY_SECONDS ∧
    (fetch oracle).result = none ∧
    process_data oracle = none := by
  have e4 : fetchLoop oracle 1 4 = ⟨1, [], none⟩ := by
    rw [show (1 : Nat) = 0 + 1 from rfl, fetchLoop_fail_step (h 4)]
    rfl
  have e3 : fetchLoop oracle 2 3 = ⟨2, [RETRY_DELAY_SECONDS], none⟩ := by
    rw [show (2 : Nat) = 1 + 1 from rfl, fetchLoop_fail_step (h 3), e4]
    rfl
  have e2 : fetchLoop oracle 3 2 =
      ⟨3, [RETRY_DELAY_SECONDS, RETRY_DELAY_SECONDS], none⟩ := by
    rw [show (3 : Nat) = 2 + 1 from rfl, fetchLoop_fail_step (h 2), e3]
    rfl
  have e1 : fetchLoop oracle 4 1 =
      ⟨4, [RETRY_DELAY_SECONDS, RETRY_DELAY_SECONDS, RETRY_DELAY_SECONDS], none⟩ := by
    rw [show (4 : Nat) = 3 + 1 from rfl, fetchLoop_fail_step (h 1), e2]
    rfl
  have e0 : fetch oracle =
      ⟨5, [RETRY_DELAY_SECONDS, RETRY_DELAY_SECONDS, RETRY_DELAY_SECONDS,
           RETRY_DELAY_SECONDS], none⟩ := by
    show fetchLoop oracle (4 + 1) 0 = _
    rw [fetchLoop_fail_step (h 0), e1]
    rfl
  refine ⟨by rw [e0]; rfl, rfl, by rw [e0]; rfl, by rw [e0], ?_⟩
  unfold process_data
  rw [e0]

theorem C3_exhaustion_five_attempts_witness :
    (fetch fun _ => AttemptOutcome.netFail).attemptsMade = MAX_RETRIES ∧
    MAX_RETRIES = 5 ∧
    (fetch fun _ => AttemptOutcome.netFail).sleeps =
      List.replicate (MAX_RETRIES - 1) RETRY_DELAY_SECONDS ∧
    (fetch fun _ => AttemptOutcome.netFail).result = none ∧
    process_data (fun _ => AttemptOutcome.netFail) = none :=
  C3_exhaustion_five_attempts _ (fun _ => rfl)

lemma fetchLoop_firstOk (oracle : Nat → AttemptOutcome) (doc : RawDoc) :
    ∀ k fuel attempt : Nat, k < fuel → attempt + fuel ≤ MAX_RETRIES →
      (∀ i, i < k → (oracle (attempt + i)).isFail = true) →
      oracle (attempt + k) = .ok doc →
      fetchLoop oracle fuel attempt =
        ⟨k + 1, List.replicate k RETRY_DELAY_SECONDS, some doc⟩ := by
  intro k
  induction k with
  | zero =>
    intro fuel attempt hk hle hfail hok
    cases fuel with
    | zero => omega
    | succ f =>
      rw [fetchLoop_ok_step (show oracle attempt = .ok doc by
        rw [show attempt = attempt + 0 from rfl]; exact hok)]
      rfl
  | succ k ih =>
    intro fuel attempt hk hle hfail hok
    cases fuel with
    | zero => omega
    | succ f =>
      have h0 : (oracle attempt).isFail = true := by
        have h1 := hfail 0 (Nat.succ_pos k)
        rwa [Nat.add_zero] at h1
      rw [fetchLoop_fail_step h0]
      have hrest : fetchLoop oracle f (attempt + 1) =
          ⟨k + 1, List.replicate k RETRY_DELAY_SECONDS, some doc⟩ := by
        apply ih f (attempt + 1) (by omega) (by omega)
        · intro i hi
          have h2 := hfail (i + 1) (by omega)
          rwa [show attempt + (i + 1) = attempt + 1 + i by omega] at h2
        · have h3 := hok
          rwa [show attempt + (k + 1) = attempt + 1 + k by omega] at h3
      rw [hrest]
      have hM : MAX_RETRIES = 5 := rfl
      rw [hM] at hle
      have hcond : attempt < MAX_RETRIES - 1 := by
        rw [hM]
        omega
      rw [if_pos hcond]
      rfl

/-- C4: when the first `N - 1` attempts fail and attempt `N` succeeds
(`N ≤ MAX_RETRIES`), the loop stops with exactly `N` attempts made, returns
that attempt's payload, and slept the fixed `RETRY_DELAY_SECONDS = 10` once
after each of the `N - 1` failed attempts — in particular between every pair
of consecutive failed attempts. -/
theorem C4_retry_until_success (oracle : Nat → AttemptOutcome) (doc : RawDoc)
    (N : Nat) (hpos : 0 < N) (hle : N ≤ MAX_RETRIES)
    (hfail : ∀ i, i < N - 1 → (oracle i).isFail = true)
    (hok : oracle (N - 1) = .ok doc) :
    fetch oracle = ⟨N, List.replicate (N - 1) RETRY_DELAY_SECONDS, some doc⟩ ∧
    RETRY_DELAY_SECONDS = 10 := by
  refine ⟨?_, rfl⟩
  unfold fetch
  have h := fetchLoop_firstOk oracle doc (N - 1) MAX_RETRIES 0
    (by omega) (by omega)
    (fun i hi => by
      have h2 := hfail i hi
      rwa [Nat.zero_add])
    (by rwa [Nat.zero_add])
  rw [h, show N - 1 + 1 = N by omega]

def exOracle : Nat → AttemptOutcome :=
  fun n => if n < 2 then .netFail else .ok []

theorem C4_retry_until_success_witness :
    fetch exOracle = ⟨3, List.replicate 2 RETRY_DELAY_SECONDS, some []⟩ ∧
    RETRY_DELAY_SECONDS = 10 :=
  C4_retry_until_success exOracle [] 3 (by decide) (by decide)
    (fun i hi => by
      unfold exOracle
      rw [if_pos hi]
      rfl)
    (by rfl)

lemma fetchLoop_congr_classes {o₁ o₂ : Nat → AttemptOutcome}
    (h : ∀ n, o₁ n = o₂ n ∨ ((o₁ n).isFail = true ∧ (o₂ n).isFail = true)) :
    ∀ fuel attempt, fetchLoop o₁ fuel attempt = fetchLoop o₂ fuel attempt := by
  intro fuel
  induction fuel with
  | zero => intro attempt; rfl
  | succ f ih =>
    intro attempt
    rcases h attempt with heq | ⟨h1, h2⟩
    · cases ho : o₂ attempt with
      | ok d =>
        rw [fetchLoop_ok_step (heq.trans ho), fetchLoop_ok_step ho]
      | netFail =>
        rw [fetchLoop_fail_step (show (o₁ attempt).isFail = true by
              rw [heq, ho]; rfl),
            fetchLoop_fail_step (show (o₂ attempt).isFail = true by
              rw [ho]; rfl), ih]
      | badJson =>
        rw [fetchLoop_fail_step (show (o₁ attempt).isFail = true by
              rw [heq, ho]; rfl),
            fetchLoop_fail_step (show (o₂ attempt).isFail = true by
              rw [ho]; rfl), ih]
    · rw [fetchLoop_fail_step h1, fetchLoop_fail_step h2, ih]

/-- C6: a body that fails to parse as JSON takes exactly the retry path of a
network-level failure: replacing every `badJson` outcome by `netFail` leaves
the whole fetch trace — attempts made, sleeps, and result — unchanged, so a
parse failure is retried like a network failure instead of aborting the
run. -/
theorem C6_badJson_retried_like_netFail (oracle : Nat → AttemptOutcome) :
    fetch (fun n => if oracle n = .badJson then .netFail else oracle n) =
      fetch oracle := by
  unfold fetch
  apply fetchLoop_congr_classes
  intro n
  by_cases hb : oracle n = .badJson
  · rw [if_pos hb, hb]
    exact Or.inr ⟨rfl, rfl⟩
  · rw [if_neg hb]
    exact Or.inl rfl

end GasolineraESP
